import Mathlib

/-!
# Verification of the autograding runner (`src/runner.ts`)

A shallow embedding of the grading-test execution engine of the
`illinois/autograding` GitHub action. The embedded code is `src/runner.ts`
(the data model comes from `src/Test.ts`):

* the data model: `Test`, `TestSuite`, `TestResult`, `Report`;
* the output comparator inside `runCommand` (lines 180-207), with the JS
  regular-expression engine kept abstract as a match oracle;
* the pytest command rewrite at the top of `runCommand` (lines 114-121);
* the timeout-budget arithmetic of `run` (lines 216-225), with JS numbers
  modelled as rationals;
* `waitForExit` (lines 39-67) as a state machine over the timer / exit /
  error events of one supervised child process;
* `runAll` (lines 235-404) as a fold over the test list, with the outcome
  of actually executing one test (pass / fail) supplied by an oracle list,
  one Boolean per declared test, consulted only when the test is executed.

JS truthiness of optional strings / numbers (`undefined` and `''` / `0` are
falsy) is modelled explicitly on `Option`.
-/

/-- `TestComparison` from `src/Test.ts`: `'exact' | 'included' | 'regex' | null`
(the `null` case is folded into the `Option` at the use site). -/
inductive TestComparison
  | exact
  | included
  | regex
  deriving DecidableEq, Repr

/-- `Test` from `src/Test.ts`.  Numbers (`timeout`, `points`) are modelled as
rationals; fields that may be `undefined` at runtime are `Option`s. -/
structure Test where
  name : String
  run : String
  setup : Option String := none
  timeout : Option ℚ := none
  input : Option String := none
  output : Option String := none
  points : Option ℚ := none
  comparison : Option TestComparison := none
  deriving DecidableEq, Repr

/-- `TestSuite` from `src/Test.ts`. -/
structure TestSuite where
  tests : List Test
  allOrNothing : Option Bool := none
  deriving DecidableEq, Repr

/-- `TestResult` from `src/Test.ts`. -/
structure TestResult where
  test : String
  points : ℚ
  availablePoints : ℚ
  success : Bool
  deriving DecidableEq, Repr

/-- `Report` from `src/Test.ts`. -/
structure Report where
  testSuite : String
  points : ℚ
  availablePoints : ℚ
  testsPassed : ℕ
  testsFailed : ℕ
  log : List TestResult
  deriving DecidableEq, Repr

/-- JS truthiness of an optional string: `undefined` and `''` are falsy.
The source tests this as `!test.output || test.output == ''`. -/
def truthyStr : Option String → Bool
  | none => false
  | some s => !(s == "")

/-- JS `x || d` on an optional number: `undefined` and `0` are falsy. -/
def jsOrNum (x : Option ℚ) (d : ℚ) : ℚ :=
  match x with
  | none => d
  | some v => if v = 0 then d else v

/-- JS `x || d` on a number: `0` is falsy. -/
def jsOrNumV (x d : ℚ) : ℚ := if x = 0 then d else x

/-- JS `s.includes(sub)`: `sub` occurs as a contiguous substring of `s`. -/
def jsIncludes (s sub : String) : Bool := decide (sub.data <:+: s.data)

/-- Replace every (non-overlapping, left-to-right) `"\r\n"` by `"\n"`:
the effect of `text.replace(/\r\n/gi, '\n')` in the source. -/
def crlfToLf : List Char → List Char
  | [] => []
  | '\r' :: '\n' :: rest => '\n' :: crlfToLf rest
  | c :: rest => c :: crlfToLf rest

/-- JS `String.prototype.trim`: drop whitespace from both ends. -/
def trimChars (l : List Char) : List Char :=
  ((l.dropWhile Char.isWhitespace).reverse.dropWhile Char.isWhitespace).reverse

/-- `normalizeLineEndings` from `src/runner.ts` (line 21):
`text.replace(/\r\n/gi, '\n').trim()`. -/
def normalizeLineEndings (s : String) : String :=
  String.mk (trimChars (crlfToLf s.data))

/-- The failure taxonomy of the runner: `TestTimeoutError`, exit with a
non-zero code (`TestError`), a spawn-level `error` event, and
`TestOutputError` (carrying expected and actual text). -/
inductive TestFailure
  | timeout (ms : ℤ)
  | exitCode (code : Option ℤ) (signal : Option String)
  | spawnError (msg : String)
  | outputMismatch (expected actual : String)
  deriving DecidableEq, Repr

/-- The effective command spawned by `runCommand` (`src/runner.ts` lines
114-121): a run command containing `'pytest'` but not `'--tb'` gets
`' --tb=native'` appended; any other command is spawned verbatim. -/
def effectiveCommand (run : String) : String :=
  if jsIncludes run "pytest" && !(jsIncludes run "--tb") then
    run ++ " --tb=native"
  else
    run

/-- The command `runCommand` actually hands to `spawn` for a test. -/
def spawnedCommand (t : Test) : String := effectiveCommand t.run

/-- The output-comparison stage of `runCommand` (`src/runner.ts` lines
180-207), reached only after the run command exited 0 within budget.
`rmatch pat text` is the abstract JS regex oracle for
`text.match(new RegExp(pat))` being non-null. -/
def checkOutput (rmatch : String → String → Bool) (t : Test)
    (output : String) : Except TestFailure Unit :=
  if !truthyStr t.output && !truthyStr t.input then
    .ok ()
  else
    let expected := normalizeLineEndings (t.output.getD "")
    let actual := normalizeLineEndings output
    match t.comparison with
    | some .exact =>
      if actual ≠ expected then .error (.outputMismatch expected actual)
      else .ok ()
    | some .regex =>
      -- Note: the source does not use `expected` here; the pattern is the
      -- raw `test.output || ''`.
      if !rmatch (t.output.getD "") actual then
        .error (.outputMismatch (t.output.getD "") actual)
      else .ok ()
    | _ =>
      if !jsIncludes actual expected then
        .error (.outputMismatch expected actual)
      else .ok ()

/-- `runCommand` after the spawn (`src/runner.ts` lines 151-207): the wait
result of the child (success, or one of the failures) followed by the
comparison stage on the captured stdout. -/
def runCommandOutcome (rmatch : String → String → Bool) (t : Test)
    (exit : Except TestFailure Unit) (output : String) :
    Except TestFailure Unit :=
  match exit with
  | .error e => .error e
  | .ok () => checkOutput rmatch t output

/-- The timeout budget computed at the top of `run` (`src/runner.ts` line
218): `Math.floor((test.timeout || 1) * 60 * 1000 || 30000)`. -/
def budgetMs (t : Test) : ℤ :=
  Int.floor (jsOrNumV (jsOrNum t.timeout 1 * 60 * 1000) 30000)

/-- `Math.floor(elapsed[0] * 1000 + elapsed[1] / 1000000)` (`src/runner.ts`
line 223): the wall-clock milliseconds consumed by setup, from an `hrtime`
pair of seconds and nanoseconds. -/
def elapsedMsFloor (sec ns : ℕ) : ℤ :=
  Int.floor ((sec * 1000 : ℚ) + ns / 1000000)

/-- The timeout `run` passes to `runCommand` for the run phase
(`src/runner.ts` lines 218-224): the budget minus the elapsed setup time. -/
def runPhaseTimeout (t : Test) (sec ns : ℕ) : ℤ :=
  budgetMs t - elapsedMsFloor sec ns

/-- The spec-side budget formula: the declared timeout in minutes times
60000 ms, defaulting to 1 minute when the timeout is absent or zero. -/
def specBudgetMs (t : Test) : ℤ :=
  Int.floor ((match t.timeout with
              | none => (1 : ℚ)
              | some x => if x = 0 then 1 else x) * 60000)

/-!
## `waitForExit` as a state machine

`waitForExit` (`src/runner.ts` lines 39-67) races a `setTimeout` timer
against the child's `exit` and `error` events.  We model one supervised
child as a state holding the `timedOut` flag of the closure, whether the
timer is still armed (`clearTimeout` disarms it), whether `tree-kill` was
requested, and the settlement of the promise (`none` while pending; JS
promises ignore every resolution after the first).
-/

/-- How the `waitForExit` promise settled. -/
inductive WaitOutcome
  | success
  | exitError (code : Option ℤ) (signal : Option String)
  | errored (msg : String)
  | timedOut
  deriving DecidableEq, Repr

/-- The state of one `waitForExit` call: the closure's `timedOut` flag, the
`exitTimeout` timer (armed until it fires or `clearTimeout` runs), whether
`kill(child.pid)` was issued, and the promise settlement. -/
structure WaitState where
  timedOut : Bool
  timerActive : Bool
  killed : Bool
  settled : Option WaitOutcome
  deriving DecidableEq, Repr

/-- The state at the start of `waitForExit`: timer armed, promise pending. -/
def initWaitState : WaitState :=
  { timedOut := false, timerActive := true, killed := false, settled := none }

/-- The events that can reach a `waitForExit` call: its timer firing, the
child's `exit` event, the child's `error` event. -/
inductive WaitEvent
  | timerFire
  | exited (code : Option ℤ) (signal : Option String)
  | errored (msg : String)
  deriving DecidableEq, Repr

/-- JS promise settlement: only the first resolution/rejection counts. -/
def settle (s : Option WaitOutcome) (o : WaitOutcome) : Option WaitOutcome :=
  match s with
  | none => some o
  | some o₀ => some o₀

/-- One event of `waitForExit` (`src/runner.ts` lines 44-65).  A fired or
cleared timer never fires (again); the `exit` and `error` handlers return
immediately when `timedOut` is set and otherwise clear the timer and settle
the promise. -/
def waitStep (s : WaitState) : WaitEvent → WaitState
  | .timerFire =>
    if s.timerActive then
      { s with timedOut := true, timerActive := false, killed := true,
               settled := settle s.settled .timedOut }
    else s
  | .exited code signal =>
    if s.timedOut then s
    else
      { s with timerActive := false,
               settled := settle s.settled
                 (if code = some 0 then .success
                  else .exitError code signal) }
  | .errored msg =>
    if s.timedOut then s
    else
      { s with timerActive := false,
               settled := settle s.settled (.errored msg) }

/-- Run a `waitForExit` call over a sequence of events. -/
def waitRun (s : WaitState) (evs : List WaitEvent) : WaitState :=
  evs.foldl waitStep s

/-!
## `runAll` as a fold

`runAll` (`src/runner.ts` lines 235-404) keeps a `Report` plus the mutable
flags `hasPoints`, `failed` and `skipped`.  We carry them in one state,
together with a ghost counter of how many tests were skipped (the code only
logs a message on skip; the counter makes the skip bucket observable for
the accounting invariant).  Executing a test (`await run(test, cwd)`) is
abstracted by a Boolean outcome supplied alongside the test and consulted
only on the non-skip branch.
-/

/-- The loop state of `runAll`: the report under construction and the
`hasPoints` / `failed` / `skipped` flags, plus a ghost count of skipped
tests. -/
structure RunState where
  report : Report
  hasPoints : Bool
  failed : Bool
  skipped : Bool
  skippedCount : ℕ
  deriving DecidableEq, Repr

/-- The state before the loop of `runAll` (`src/runner.ts` lines 236-246). -/
def initRunState (suiteName : String) : RunState :=
  { report := { testSuite := suiteName, points := 0, availablePoints := 0,
                testsPassed := 0, testsFailed := 0, log := [] }
    hasPoints := false
    failed := false
    skipped := false
    skippedCount := 0 }

/-- JS truthiness of the optional `points` field: `undefined` and `0` are
falsy (`if (test.points)`). -/
def pointsTruthy (t : Test) : Bool :=
  match t.points with
  | none => false
  | some p => !(p == 0)

/-- The declared points of a test, `0` when absent. -/
def pointsVal (t : Test) : ℚ := t.points.getD 0

/-- One iteration of the `runAll` loop (`src/runner.ts` lines 265-340) for
test `t`, whose execution outcome — had it run — is `outcome` (`true` iff
`await run(test, cwd)` would return without throwing).  The skip branch
never consults `outcome`. -/
def runTestStep (allOrNothing : Bool) (s : RunState) (t : Test)
    (outcome : Bool) : RunState :=
  let tr0 : TestResult :=
    { test := t.name, success := false, points := 0, availablePoints := 0 }
  if allOrNothing && s.failed then
    -- Skip test if allOrNothing is true and a test has already failed
    { s with skipped := true
             skippedCount := s.skippedCount + 1
             report := { s.report with log := s.report.log ++ [tr0] } }
  else
    -- `if (test.points)`: tally available points before running
    let tr1 : TestResult :=
      if pointsTruthy t then { tr0 with availablePoints := pointsVal t }
      else tr0
    let rep1 : Report :=
      if pointsTruthy t then
        { s.report with
            availablePoints := s.report.availablePoints + pointsVal t }
      else s.report
    let hasPts := s.hasPoints || pointsTruthy t
    if outcome then
      -- TEST PASSED
      let tr2 : TestResult :=
        if pointsTruthy t then
          { tr1 with success := true, points := pointsVal t }
        else { tr1 with success := true }
      { s with hasPoints := hasPts
               report :=
                 { rep1 with
                     testsPassed := rep1.testsPassed + 1
                     points := rep1.points +
                       (if pointsTruthy t then pointsVal t else 0)
                     log := rep1.log ++ [tr2] } }
    else
      -- TEST FAILED
      { s with hasPoints := hasPts
               failed := true
               report :=
                 { rep1 with
                     testsFailed := rep1.testsFailed + 1
                     log := rep1.log ++ [tr1] } }

/-- The loop of `runAll` over test/outcome pairs. -/
def runAllLoop (allOrNothing : Bool) (s : RunState) :
    List (Test × Bool) → RunState
  | [] => s
  | (t, b) :: rest => runAllLoop allOrNothing (runTestStep allOrNothing s t b) rest

/-- The post-loop adjustment of `runAll` (`src/runner.ts` lines 355-358):
under all-or-nothing, reset earned points to 0 when a test failed. -/
def finishReport (allOrNothing : Bool) (s : RunState) : RunState :=
  if allOrNothing then
    { s with report :=
        { s.report with points := if s.failed then 0 else s.report.points } }
  else s

/-- `testSuite.allOrNothing == true` (`src/runner.ts` line 262). -/
def aonFlag (suite : TestSuite) : Bool := suite.allOrNothing == some true

/-- `runAll` (`src/runner.ts` lines 235-404), with one oracle outcome per
declared test: the final loop state, including the completed report. -/
def runAll (suite : TestSuite) (outcomes : List Bool)
    (suiteName : String := "autograding") : RunState :=
  finishReport (aonFlag suite)
    (runAllLoop (aonFlag suite) (initRunState suiteName)
      (suite.tests.zip outcomes))

/-- The `TestResult` recorded for a skipped test: the freshly initialised
result, never mutated. -/
def skippedResult (t : Test) : TestResult :=
  { test := t.name, success := false, points := 0, availablePoints := 0 }

/-- The `TestResult` recorded for an executed test with outcome `b`. -/
def execResult (t : Test) (b : Bool) : TestResult :=
  { test := t.name
    success := b
    points := if b && pointsTruthy t then pointsVal t else 0
    availablePoints := if pointsTruthy t then pointsVal t else 0 }

/-- The log an all-or-nothing run produces, test by test: executed tests
record their real outcome; once `failed` is set every later test records
the untouched initial result. -/
def aonLogSpec : Bool → List (Test × Bool) → List TestResult
  | _, [] => []
  | failed, (t, b) :: rest =>
    if failed then skippedResult t :: aonLogSpec true rest
    else execResult t b :: aonLogSpec (failed || !b) rest

/-!
## Helper lemmas
-/

/-- A test whose `points` field is JS-falsy contributes 0 declared points. -/
theorem pointsVal_of_not_truthy (t : Test) (h : pointsTruthy t = false) :
    pointsVal t = 0 := by
  unfold pointsTruthy at h
  unfold pointsVal
  cases hp : t.points with
  | none => rfl
  | some p =>
    rw [hp] at h
    simp only [Bool.not_eq_false', beq_iff_eq] at h
    simp [h]

/-- The availability increment of an executed test is its declared points,
whether or not the `points` field is truthy. -/
theorem availIncrement (t : Test) :
    (if pointsTruthy t then pointsVal t else 0) = pointsVal t := by
  cases h : pointsTruthy t with
  | true => rfl
  | false => simp [pointsVal_of_not_truthy t h]

/-- An option whose string truthiness fails holds no text. -/
theorem getD_of_not_truthy (o : Option String) (h : truthyStr o = false) :
    o.getD "" = "" := by
  cases o with
  | none => rfl
  | some s =>
    simp only [truthyStr, Bool.not_eq_false', beq_iff_eq] at h
    simp [h]

/-- Normalization of the empty string is the empty string. -/
theorem normalize_empty : normalizeLineEndings "" = "" := by decide

/-- Every string contains the empty string (`''.includes` counterpart). -/
theorem jsIncludes_empty (s : String) : jsIncludes s "" = true := by
  simp only [jsIncludes, decide_eq_true_eq]
  exact ⟨[], s.data, by simp⟩

/-!
## C9 — pytest traceback flag
-/

/-- C9: a run command containing `'pytest'` and not `'--tb'` is spawned
with `' --tb=native'` appended; every other run command is spawned
verbatim (`src/runner.ts` lines 114-131). -/
theorem spawnedCommand_pytest (t : Test) :
    spawnedCommand t =
      if "pytest".data <:+: t.run.data ∧ ¬("--tb".data <:+: t.run.data)
      then t.run ++ " --tb=native"
      else t.run := by
  unfold spawnedCommand effectiveCommand jsIncludes
  by_cases h1 : "pytest".data <:+: t.run.data <;>
    by_cases h2 : "--tb".data <:+: t.run.data <;>
      simp [h1, h2]

/-!
## C5 — timeout budget arithmetic
-/

/-- C5: the budget is the declared timeout in minutes times 60000 ms,
defaulting to 1 minute when the timeout is absent or zero (the `|| 30000`
fallback in the source is dead, since the first factor is never 0), and
the run phase receives this budget minus the wall-clock milliseconds
consumed by setup (`src/runner.ts` lines 216-225). -/
theorem run_timeout_budget (t : Test) (sec ns : ℕ) :
    budgetMs t = specBudgetMs t ∧
    runPhaseTimeout t sec ns = specBudgetMs t - elapsedMsFloor sec ns := by
  have hbudget : budgetMs t = specBudgetMs t := by
    unfold budgetMs specBudgetMs jsOrNum jsOrNumV
    cases ht : t.timeout with
    | none => norm_num
    | some x =>
      by_cases hx : x = 0
      · simp [hx]
        norm_num
      · have hnz : x * 60 * 1000 ≠ 0 := by
          simp [hx]
        simp [hx, hnz]
        ring_nf
  exact ⟨hbudget, by unfold runPhaseTimeout; rw [hbudget]⟩

/-!
## C6 — regex comparison uses the raw pattern
-/

/-- C6: in `'regex'` mode the test passes iff the normalized captured
stdout matches the regular expression compiled from the raw, non-normalized
expected-output field (`src/runner.ts` lines 194-199).  The JS regex engine
is abstract; the only fact used about it is that the empty pattern (which
arises from `test.output || ''` when no output is declared) matches every
string, as `new RegExp('')` does. -/
theorem regex_comparison (rmatch : String → String → Bool)
    (hEmpty : ∀ s, rmatch "" s = true) (t : Test)
    (hcmp : t.comparison = some .regex) (out : String) :
    runCommandOutcome rmatch t (.ok ()) out = .ok () ↔
      rmatch (t.output.getD "") (normalizeLineEndings out) = true := by
  unfold runCommandOutcome checkOutput
  by_cases hguard : (!truthyStr t.output && !truthyStr t.input) = true
  · rw [if_pos hguard]
    have hout : truthyStr t.output = false := by
      cases h : truthyStr t.output with
      | false => rfl
      | true => rw [h] at hguard; simp at hguard
    rw [getD_of_not_truthy t.output hout, hEmpty]
    simp
  · rw [if_neg hguard, hcmp]
    cases hr : rmatch (t.output.getD "") (normalizeLineEndings out) <;> simp [hr]

/-- Witness for C6 at a concrete regex-mode test and a total match oracle. -/
theorem regex_comparison_witness :
    runCommandOutcome (fun _ _ => true)
        { name := "t", run := "./t", comparison := some .regex,
          output := some "ab" } (.ok ()) "xaby" = .ok () ↔
      (fun _ _ => true) ((some "ab").getD "")
          (normalizeLineEndings "xaby") = true :=
  regex_comparison (fun _ _ => true) (fun _ => rfl)
    { name := "t", run := "./t", comparison := some .regex,
      output := some "ab" } rfl "xaby"

/-!
## C7 — no expected output and no stdin input
-/

/-- C7: a test declaring neither expected output nor stdin input passes
unconditionally once its run command exits 0: no comparison runs and no
output-mismatch error can arise (`src/runner.ts` lines 182-184). -/
theorem no_output_no_input_passes (rmatch : String → String → Bool)
    (t : Test) (out : String) (hout : truthyStr t.output = false)
    (hin : truthyStr t.input = false) :
    runCommandOutcome rmatch t (.ok ()) out = .ok () := by
  unfold runCommandOutcome checkOutput
  simp [hout, hin]

/-- Witness for C7 at a concrete bare test and arbitrary captured output. -/
theorem no_output_no_input_passes_witness :
    runCommandOutcome (fun _ _ => false)
      { name := "unit", run := "make test" } (.ok ()) "any output" = .ok () :=
  no_output_no_input_passes (fun _ _ => false)
    { name := "unit", run := "make test" } "any output" rfl rfl

/-!
## C10 — stdin input without expected output
-/

/-- C10: a test with stdin input but no expected output still runs the
comparison against the empty expected string: in the default `'included'`
mode it passes whenever the run exits 0, while in `'exact'` mode it passes
iff the normalized captured stdout is itself empty
(`src/runner.ts` lines 182-206). -/
theorem input_only_comparison (rmatch : String → String → Bool) (t : Test)
    (out : String) (hin : truthyStr t.input = true)
    (hout : truthyStr t.output = false) :
    ((t.comparison = none ∨ t.comparison = some .included) →
        runCommandOutcome rmatch t (.ok ()) out = .ok ()) ∧
    (t.comparison = some .exact →
        (runCommandOutcome rmatch t (.ok ()) out = .ok () ↔
          normalizeLineEndings out = "")) := by
  unfold runCommandOutcome checkOutput
  rw [getD_of_not_truthy t.output hout, normalize_empty]
  simp only [hin, Bool.not_true, Bool.and_false, Bool.false_eq_true,
    if_false]
  constructor
  · rintro (hc | hc) <;> rw [hc] <;> simp [jsIncludes_empty]
  · intro hc
    rw [hc]
    by_cases hne : normalizeLineEndings out = "" <;> simp [hne]

/-- Witness for C10 at a concrete exact-mode test whose stdout is empty. -/
theorem input_only_comparison_witness :
    ((({ name := "t", run := "./t", input := some "5",
         comparison := some TestComparison.exact } : Test).comparison = none ∨
      ({ name := "t", run := "./t", input := some "5",
         comparison := some TestComparison.exact } : Test).comparison =
        some .included) →
      runCommandOutcome (fun _ _ => false)
        { name := "t", run := "./t", input := some "5",
          comparison := some TestComparison.exact } (.ok ()) "" = .ok ()) ∧
    (({ name := "t", run := "./t", input := some "5",
        comparison := some TestComparison.exact } : Test).comparison =
        some .exact →
      (runCommandOutcome (fun _ _ => false)
          { name := "t", run := "./t", input := some "5",
            comparison := some TestComparison.exact } (.ok ()) "" = .ok () ↔
        normalizeLineEndings "" = "")) :=
  input_only_comparison (fun _ _ => false)
    { name := "t", run := "./t", input := some "5",
      comparison := some TestComparison.exact } "" rfl rfl

/-!
## C8 — timeout finality in `waitForExit`
-/

/-- A state whose timer has fired absorbs every further event. -/
theorem waitStep_fixed (s : WaitState) (htd : s.timedOut = true)
    (hta : s.timerActive = false) (e : WaitEvent) : waitStep s e = s := by
  cases e <;> simp [waitStep, htd, hta]

/-- C8: once the timeout timer of a pending `waitForExit` call fires, the
promise is settled with `Timeout` and every subsequent event from the same
child — exit with any code or signal, error, or a stray timer event — is
discarded, leaving the state (and so the settlement) unchanged
(`src/runner.ts` lines 39-67). -/
theorem timeout_is_final (s : WaitState) (evs : List WaitEvent)
    (hset : s.settled = none) (hta : s.timerActive = true) :
    (waitStep s .timerFire).settled = some .timedOut ∧
    waitRun (waitStep s .timerFire) evs = waitStep s .timerFire := by
  have hstep : waitStep s .timerFire =
      { s with timedOut := true, timerActive := false, killed := true,
               settled := some .timedOut } := by
    simp [waitStep, hta, hset, settle]
  refine ⟨by rw [hstep], ?_⟩
  rw [hstep]
  induction evs with
  | nil => rfl
  | cons e rest ih =>
    unfold waitRun at ih ⊢
    rw [List.foldl_cons, waitStep_fixed _ rfl rfl e]
    exact ih

/-- Witness for C8: from the initial state, a late exit 0, an error and a
stray timer event after the timeout all leave the `Timeout` result. -/
theorem timeout_is_final_witness :
    (waitStep initWaitState .timerFire).settled = some .timedOut ∧
    waitRun (waitStep initWaitState .timerFire)
        [.exited (some 0) none, .errored "late", .timerFire] =
      waitStep initWaitState .timerFire :=
  timeout_is_final initWaitState
    [.exited (some 0) none, .errored "late", .timerFire] rfl rfl

/-!
## Step lemmas for the `runAll` loop
-/

/-- Shape of the skip branch: with all-or-nothing active and a prior
failure, the loop records the untouched initial result and changes nothing
else in the report; the execution outcome is never consulted. -/
theorem runTestStep_skip (s : RunState) (t : Test) (b : Bool)
    (hfail : s.failed = true) :
    runTestStep true s t b =
      { s with skipped := true
               skippedCount := s.skippedCount + 1
               report := { s.report with
                 log := s.report.log ++ [skippedResult t] } } := by
  unfold runTestStep
  rw [hfail]
  simp [skippedResult]

/-- Shape of the executed branch: when the skip guard is off the step
tallies the declared points as available, adds them as earned exactly on
success, bumps the matching counter, records `execResult`, and sets
`failed` exactly when the outcome is a failure. -/
theorem runTestStep_exec (aoN : Bool) (s : RunState) (t : Test) (b : Bool)
    (hguard : (aoN && s.failed) = false) :
    runTestStep aoN s t b =
      { s with hasPoints := s.hasPoints || pointsTruthy t
               failed := s.failed || !b
               report := { s.report with
                 points := s.report.points + (if b then pointsVal t else 0)
                 availablePoints := s.report.availablePoints + pointsVal t
                 testsPassed := s.report.testsPassed + (if b then 1 else 0)
                 testsFailed := s.report.testsFailed + (if b then 0 else 1)
                 log := s.report.log ++ [execResult t b] } } := by
  unfold runTestStep
  rw [hguard]
  cases hb : b with
  | true =>
    cases hp : pointsTruthy t with
    | true => simp [execResult, hp, Bool.or_false]
    | false =>
      have h0 := pointsVal_of_not_truthy t hp
      simp [execResult, hp, h0, Bool.or_false]
  | false =>
    cases hp : pointsTruthy t with
    | true => simp [execResult, hp]
    | false =>
      have h0 := pointsVal_of_not_truthy t hp
      simp [execResult, hp, h0]

/-- The post-loop adjustment touches only the earned-points total. -/
theorem finishReport_fields (aoN : Bool) (s : RunState) :
    (finishReport aoN s).report.availablePoints = s.report.availablePoints ∧
    (finishReport aoN s).report.testsPassed = s.report.testsPassed ∧
    (finishReport aoN s).report.testsFailed = s.report.testsFailed ∧
    (finishReport aoN s).report.log = s.report.log ∧
    (finishReport aoN s).skippedCount = s.skippedCount ∧
    (finishReport aoN s).failed = s.failed := by
  cases aoN <;> simp [finishReport]

/-!
## C1 — all-or-nothing skipping
-/

/-- C1: once a test has failed in an all-or-nothing suite, the rest of the
loop only appends untouched 0-point results, in order; earned points,
available points and both counters stay put, and the result does not
depend on the execution outcomes of the remaining tests (their setup and
run commands are never consulted). -/
theorem aon_skips_after_failure (ps : List (Test × Bool)) (s : RunState)
    (hfail : s.failed = true) :
    (runAllLoop true s ps).report.log =
        s.report.log ++ ps.map (fun p => skippedResult p.1) ∧
    (runAllLoop true s ps).report.points = s.report.points ∧
    (runAllLoop true s ps).report.availablePoints =
        s.report.availablePoints ∧
    (runAllLoop true s ps).report.testsPassed = s.report.testsPassed ∧
    (runAllLoop true s ps).report.testsFailed = s.report.testsFailed ∧
    (runAllLoop true s ps).skippedCount = s.skippedCount + ps.length := by
  induction ps generalizing s with
  | nil => simp [runAllLoop]
  | cons p rest ih =>
    obtain ⟨t, b⟩ := p
    rw [runAllLoop, runTestStep_skip s t b hfail]
    have h := ih (s := { s with skipped := true
                                skippedCount := s.skippedCount + 1
                                report := { s.report with
                                  log := s.report.log ++ [skippedResult t] } })
      hfail
    simp only at h
    obtain ⟨h1, h2, h3, h4, h5, h6⟩ := h
    refine ⟨?_, h2, h3, h4, h5, ?_⟩
    · rw [h1]
      simp
    · rw [h6]
      simp only [List.length_cons]
      omega

/-- Witness for C1: a failed state, two pending tests (one of which would
even pass), all skipped with nothing but the log growing. -/
theorem aon_skips_after_failure_witness :
    (runAllLoop true
        { report := { testSuite := "w", points := 3, availablePoints := 5,
                      testsPassed := 1, testsFailed := 1,
                      log := [] }
          hasPoints := true, failed := true, skipped := false,
          skippedCount := 0 }
        [({ name := "B", run := "./b", points := some 2 }, true),
         ({ name := "C", run := "./c", points := some 4 }, false)]).report.log =
      [] ++ [({ name := "B", run := "./b", points := some 2 } : Test),
             ({ name := "C", run := "./c", points := some 4 } : Test)].map
        (fun t => skippedResult t) ∧
    (runAllLoop true
        { report := { testSuite := "w", points := 3, availablePoints := 5,
                      testsPassed := 1, testsFailed := 1, log := [] }
          hasPoints := true, failed := true, skipped := false,
          skippedCount := 0 }
        [({ name := "B", run := "./b", points := some 2 }, true),
         ({ name := "C", run := "./c", points := some 4 }, false)]).report.points = 3 ∧
    (runAllLoop true
        { report := { testSuite := "w", points := 3, availablePoints := 5,
                      testsPassed := 1, testsFailed := 1, log := [] }
          hasPoints := true, failed := true, skipped := false,
          skippedCount := 0 }
        [({ name := "B", run := "./b", points := some 2 }, true),
         ({ name := "C", run := "./c", points := some 4 }, false)]).report.availablePoints = 5 ∧
    (runAllLoop true
        { report := { testSuite := "w", points := 3, availablePoints := 5,
                      testsPassed := 1, testsFailed := 1, log := [] }
          hasPoints := true, failed := true, skipped := false,
          skippedCount := 0 }
        [({ name := "B", run := "./b", points := some 2 }, true),
         ({ name := "C", run := "./c", points := some 4 }, false)]).report.testsPassed = 1 ∧
    (runAllLoop true
        { report := { testSuite := "w", points := 3, availablePoints := 5,
                      testsPassed := 1, testsFailed := 1, log := [] }
          hasPoints := true, failed := true, skipped := false,
          skippedCount := 0 }
        [({ name := "B", run := "./b", points := some 2 }, true),
         ({ name := "C", run := "./c", points := some 4 }, false)]).report.testsFailed = 1 ∧
    (runAllLoop true
        { report := { testSuite := "w", points := 3, availablePoints := 5,
                      testsPassed := 1, testsFailed := 1, log := [] }
          hasPoints := true, failed := true, skipped := false,
          skippedCount := 0 }
        [({ name := "B", run := "./b", points := some 2 }, true),
         ({ name := "C", run := "./c", points := some 4 }, false)]).skippedCount = 0 + 2 :=
  aon_skips_after_failure
    [({ name := "B", run := "./b", points := some 2 }, true),
     ({ name := "C", run := "./c", points := some 4 }, false)]
    { report := { testSuite := "w", points := 3, availablePoints := 5,
                  testsPassed := 1, testsFailed := 1, log := [] }
      hasPoints := true, failed := true, skipped := false,
      skippedCount := 0 }
    rfl

/-!
## C4 — accounting of passed / failed / skipped and log order
-/

/-- Loop invariant for C4: each iteration feeds exactly one of the three
buckets and appends exactly one result carrying the test's name. -/
theorem runAllLoop_counts_log (aoN : Bool) (ps : List (Test × Bool)) :
    ∀ s : RunState,
    ((runAllLoop aoN s ps).report.testsPassed +
        (runAllLoop aoN s ps).report.testsFailed +
        (runAllLoop aoN s ps).skippedCount
      = s.report.testsPassed + s.report.testsFailed + s.skippedCount +
          ps.length) ∧
    (runAllLoop aoN s ps).report.log.map (fun r => r.test) =
      s.report.log.map (fun r => r.test) ++ ps.map (fun p => p.1.name) := by
  induction ps with
  | nil => intro s; simp [runAllLoop]
  | cons p rest ih =>
    intro s
    obtain ⟨t, b⟩ := p
    rw [runAllLoop]
    by_cases hguard : (aoN && s.failed) = true
    · have haoN : aoN = true := by
        cases aoN with
        | true => rfl
        | false => simp at hguard
      have hfail : s.failed = true := by
        cases hs : s.failed with
        | true => rfl
        | false => rw [haoN, hs] at hguard; simp at hguard
      rw [haoN] at ih ⊢
      rw [runTestStep_skip s t b hfail]
      obtain ⟨hc, hl⟩ := ih _
      constructor
      · rw [hc]
        simp only [List.length_cons]
        omega
      · rw [hl]
        simp [skippedResult]
    · have hguard' : (aoN && s.failed) = false := by
        cases h : (aoN && s.failed) with
        | true => exact absurd h hguard
        | false => rfl
      rw [runTestStep_exec aoN s t b hguard']
      obtain ⟨hc, hl⟩ := ih _
      constructor
      · rw [hc]
        simp only [List.length_cons]
        cases b <;> simp <;> omega
      · rw [hl]
        simp [execResult]

/-- C4: after `runAll`, passed + failed + skipped equals the number of
declared tests, and the log holds exactly one `TestResult` per declared
test, in the suite's declared order. -/
theorem runAll_counts_and_order (suite : TestSuite) (outcomes : List Bool)
    (suiteName : String)
    (hlen : outcomes.length = suite.tests.length) :
    ((runAll suite outcomes suiteName).report.testsPassed +
        (runAll suite outcomes suiteName).report.testsFailed +
        (runAll suite outcomes suiteName).skippedCount
      = suite.tests.length) ∧
    (runAll suite outcomes suiteName).report.log.map (fun r => r.test) =
      suite.tests.map (fun t => t.name) := by
  unfold runAll
  obtain ⟨-, hp, hf, hlog, hsk, -⟩ :=
    finishReport_fields (aonFlag suite)
      (runAllLoop (aonFlag suite) (initRunState suiteName)
        (suite.tests.zip outcomes))
  rw [hp, hf, hlog, hsk]
  obtain ⟨hc, hl⟩ :=
    runAllLoop_counts_log (aonFlag suite) (suite.tests.zip outcomes)
      (initRunState suiteName)
  constructor
  · rw [hc]
    simp [initRunState, List.length_zip, hlen]
  · rw [hl]
    have hfst : (suite.tests.zip outcomes).map Prod.fst = suite.tests :=
      List.map_fst_zip suite.tests outcomes (le_of_eq hlen.symm)
    calc (initRunState suiteName).report.log.map (fun r => r.test) ++
            (suite.tests.zip outcomes).map (fun p => p.1.name)
        = ((suite.tests.zip outcomes).map Prod.fst).map (fun t => t.name) := by
          simp [initRunState]
      _ = suite.tests.map (fun t => t.name) := by rw [hfst]

/-- Witness for C4: a three-test suite (pass, fail, skipped under
all-or-nothing) has buckets summing to 3 and a log in declared order. -/
theorem runAll_counts_and_order_witness :
    ((runAll { tests := [{ name := "A", run := "./a" },
                         { name := "B", run := "./b" },
                         { name := "C", run := "./c" }],
               allOrNothing := some true }
        [true, false, true] "w").report.testsPassed +
        (runAll { tests := [{ name := "A", run := "./a" },
                            { name := "B", run := "./b" },
                            { name := "C", run := "./c" }],
                  allOrNothing := some true }
          [true, false, true] "w").report.testsFailed +
        (runAll { tests := [{ name := "A", run := "./a" },
                            { name := "B", run := "./b" },
                            { name := "C", run := "./c" }],
                  allOrNothing := some true }
          [true, false, true] "w").skippedCount
      = ([{ name := "A", run := "./a" }, { name := "B", run := "./b" },
          { name := "C", run := "./c" }] : List Test).length) ∧
    (runAll { tests := [{ name := "A", run := "./a" },
                        { name := "B", run := "./b" },
                        { name := "C", run := "./c" }],
              allOrNothing := some true }
        [true, false, true] "w").report.log.map (fun r => r.test) =
      ([{ name := "A", run := "./a" }, { name := "B", run := "./b" },
        { name := "C", run := "./c" }] : List Test).map (fun t => t.name) :=
  runAll_counts_and_order
    { tests := [{ name := "A", run := "./a" },
                { name := "B", run := "./b" },
                { name := "C", run := "./c" }],
      allOrNothing := some true }
    [true, false, true] "w" rfl

/-!
## C2 — all-or-nothing point totals
-/

/-- The loop invariant behind C2: the `failed` flag tracks a non-zero
failure count, and while nothing has failed the earned total equals the
available total. -/
def PointsInv (s : RunState) : Prop :=
  (s.failed = true ↔ s.report.testsFailed ≠ 0) ∧
  (s.report.testsFailed = 0 → s.report.points = s.report.availablePoints)

/-- One loop iteration preserves `PointsInv` (for either policy). -/
theorem runTestStep_pointsInv (aoN : Bool) (s : RunState) (t : Test)
    (b : Bool) (h : PointsInv s) : PointsInv (runTestStep aoN s t b) := by
  obtain ⟨hiff, heq⟩ := h
  by_cases hguard : (aoN && s.failed) = true
  · have haoN : aoN = true := by
      cases aoN with
      | true => rfl
      | false => simp at hguard
    have hfail : s.failed = true := by
      cases hs : s.failed with
      | true => rfl
      | false => rw [haoN, hs] at hguard; simp at hguard
    rw [haoN, runTestStep_skip s t b hfail]
    exact ⟨by simpa using hiff, by simpa using heq⟩
  · have hguard' : (aoN && s.failed) = false := by
      cases hg : (aoN && s.failed) with
      | true => exact absurd hg hguard
      | false => rfl
    rw [runTestStep_exec aoN s t b hguard']
    cases b with
    | true =>
      refine ⟨by simpa using hiff, ?_⟩
      intro h0
      simp only [if_true, Bool.not_true, Bool.or_false, add_zero] at h0 ⊢
      rw [heq h0]
    | false =>
      refine ⟨by simp, ?_⟩
      intro h0
      simp at h0

/-- The loop preserves `PointsInv`. -/
theorem runAllLoop_pointsInv (aoN : Bool) (ps : List (Test × Bool)) :
    ∀ s : RunState, PointsInv s → PointsInv (runAllLoop aoN s ps) := by
  induction ps with
  | nil => intro s h; exact h
  | cons p rest ih =>
    intro s h
    obtain ⟨t, b⟩ := p
    rw [runAllLoop]
    exact ih _ (runTestStep_pointsInv aoN s t b h)

/-- Under all-or-nothing the loop's log is `aonLogSpec`: real results up to
and including the first failure, untouched 0-point results afterwards. -/
theorem runAllLoop_aon_log (ps : List (Test × Bool)) :
    ∀ s : RunState,
    (runAllLoop true s ps).report.log =
      s.report.log ++ aonLogSpec s.failed ps := by
  induction ps with
  | nil => intro s; simp [runAllLoop, aonLogSpec]
  | cons p rest ih =>
    intro s
    obtain ⟨t, b⟩ := p
    rw [runAllLoop]
    cases hfail : s.failed with
    | true =>
      rw [runTestStep_skip s t b hfail, aonLogSpec]
      rw [ih _]
      simp [hfail]
    | false =>
      rw [runTestStep_exec true s t b (by rw [hfail, Bool.and_false])]
      rw [aonLogSpec]
      rw [ih _]
      simp [hfail]

/-- C2: in an all-or-nothing suite the final report's points are 0 when
some test failed and the full available total when none did, while the
per-test log still records, test by test, the real success flag and earned
points of every executed test (and untouched 0-point entries for skipped
ones) — the zeroing touches only the aggregate. -/
theorem aon_points_all_or_zero (suite : TestSuite) (outcomes : List Bool)
    (suiteName : String) (haon : aonFlag suite = true) :
    ((runAll suite outcomes suiteName).report.testsFailed = 0 →
        (runAll suite outcomes suiteName).report.points =
          (runAll suite outcomes suiteName).report.availablePoints) ∧
    ((runAll suite outcomes suiteName).report.testsFailed ≠ 0 →
        (runAll suite outcomes suiteName).report.points = 0) ∧
    (runAll suite outcomes suiteName).report.log =
      aonLogSpec false (suite.tests.zip outcomes) := by
  unfold runAll
  rw [haon]
  set sl := runAllLoop true (initRunState suiteName)
    (suite.tests.zip outcomes) with hsl
  have hinv : PointsInv sl := by
    rw [hsl]
    apply runAllLoop_pointsInv
    exact ⟨by simp [initRunState], by simp [initRunState]⟩
  obtain ⟨hiff, heq⟩ := hinv
  have hlog : sl.report.log = aonLogSpec false (suite.tests.zip outcomes) := by
    rw [hsl, runAllLoop_aon_log]
    simp [initRunState]
  have hff : (finishReport true sl).report.testsFailed =
      sl.report.testsFailed := by
    simp [finishReport]
  refine ⟨?_, ?_, ?_⟩
  · intro h0
    rw [hff] at h0
    have hf : sl.failed = false := by
      cases hs : sl.failed with
      | false => rfl
      | true => exact absurd (hiff.mp hs) (by simp [h0])
    simp [finishReport, hf]
    exact heq h0
  · intro h0
    rw [hff] at h0
    have hf : sl.failed = true := hiff.mpr h0
    simp [finishReport, hf]
  · simp [finishReport]
    exact hlog

/-- Witness for C2: a two-test all-or-nothing suite with one failure is
zeroed in aggregate while its log keeps the real per-test results. -/
theorem aon_points_all_or_zero_witness :
    ((runAll { tests := [{ name := "A", run := "./a", points := some 2 },
                         { name := "B", run := "./b", points := some 2 }],
               allOrNothing := some true }
        [true, false] "w").report.testsFailed = 0 →
        (runAll { tests := [{ name := "A", run := "./a", points := some 2 },
                            { name := "B", run := "./b", points := some 2 }],
                  allOrNothing := some true }
          [true, false] "w").report.points =
          (runAll { tests := [{ name := "A", run := "./a", points := some 2 },
                              { name := "B", run := "./b", points := some 2 }],
                    allOrNothing := some true }
            [true, false] "w").report.availablePoints) ∧
    ((runAll { tests := [{ name := "A", run := "./a", points := some 2 },
                         { name := "B", run := "./b", points := some 2 }],
               allOrNothing := some true }
        [true, false] "w").report.testsFailed ≠ 0 →
        (runAll { tests := [{ name := "A", run := "./a", points := some 2 },
                            { name := "B", run := "./b", points := some 2 }],
                  allOrNothing := some true }
          [true, false] "w").report.points = 0) ∧
    (runAll { tests := [{ name := "A", run := "./a", points := some 2 },
                        { name := "B", run := "./b", points := some 2 }],
              allOrNothing := some true }
        [true, false] "w").report.log =
      aonLogSpec false
        (([{ name := "A", run := "./a", points := some 2 },
           { name := "B", run := "./b", points := some 2 }] : List Test).zip
          [true, false]) :=
  aon_points_all_or_zero
    { tests := [{ name := "A", run := "./a", points := some 2 },
                { name := "B", run := "./b", points := some 2 }],
      allOrNothing := some true }
    [true, false] "w" rfl

/-!
## C3 — additive point totals without all-or-nothing
-/

/-- Without all-or-nothing the loop never skips: it records `execResult`
for every test and adds exactly the declared points of the passing ones. -/
theorem runAllLoop_no_aon (ps : List (Test × Bool)) :
    ∀ s : RunState,
    (runAllLoop false s ps).report.points =
        s.report.points +
          (ps.map (fun p => if p.2 then pointsVal p.1 else 0)).sum ∧
    (runAllLoop false s ps).report.log =
        s.report.log ++ ps.map (fun p => execResult p.1 p.2) := by
  induction ps with
  | nil => intro s; simp [runAllLoop]
  | cons p rest ih =>
    intro s
    obtain ⟨t, b⟩ := p
    rw [runAllLoop, runTestStep_exec false s t b (by rw [Bool.false_and])]
    obtain ⟨hp, hl⟩ := ih _
    constructor
    · rw [hp]
      simp only [List.map_cons, List.sum_cons]
      ring
    · rw [hl]
      simp

/-- Summing declared points over the recorded successes equals summing
them over the passing outcomes. -/
theorem sum_over_execResults (ts : List Test) :
    ∀ bs : List Bool, ts.length = bs.length →
    ((ts.zip ((ts.zip bs).map (fun p => execResult p.1 p.2))).map
        (fun p => if p.2.success then pointsVal p.1 else 0)).sum
      = ((ts.zip bs).map (fun p => if p.2 then pointsVal p.1 else 0)).sum := by
  induction ts with
  | nil => intro bs _; simp
  | cons t ts' ih =>
    intro bs hlen
    cases bs with
    | nil => simp at hlen
    | cons b bs' =>
      simp only [List.zip_cons_cons, List.map_cons, List.sum_cons]
      rw [ih bs' (by simpa using hlen)]
      rfl

/-- C3: without all-or-nothing, the report's points total is the sum of
the declared points of exactly the tests whose recorded `TestResult` is a
success (`src/runner.ts` lines 289-295). -/
theorem no_aon_points_additive (suite : TestSuite) (outcomes : List Bool)
    (suiteName : String) (haon : aonFlag suite = false)
    (hlen : outcomes.length = suite.tests.length) :
    (runAll suite outcomes suiteName).report.points =
      ((suite.tests.zip (runAll suite outcomes suiteName).report.log).map
        (fun p => if p.2.success then pointsVal p.1 else 0)).sum := by
  unfold runAll
  rw [haon]
  have hfin : ∀ s : RunState, finishReport false s = s := fun s => rfl
  rw [hfin]
  obtain ⟨hp, hl⟩ :=
    runAllLoop_no_aon (suite.tests.zip outcomes) (initRunState suiteName)
  rw [hp, hl]
  simp only [initRunState, List.nil_append]
  rw [sum_over_execResults suite.tests outcomes hlen.symm, zero_add]

/-- Witness for C3: a two-test suite with one pass earns exactly the
passing test's declared points. -/
theorem no_aon_points_additive_witness :
    (runAll { tests := [{ name := "A", run := "./a", points := some 2 },
                        { name := "B", run := "./b", points := some 3 }] }
        [true, false] "w").report.points =
      ((([{ name := "A", run := "./a", points := some 2 },
          { name := "B", run := "./b", points := some 3 }] : List Test).zip
          (runAll { tests := [{ name := "A", run := "./a", points := some 2 },
                              { name := "B", run := "./b", points := some 3 }] }
            [true, false] "w").report.log).map
        (fun p => if p.2.success then pointsVal p.1 else 0)).sum :=
  no_aon_points_additive
    { tests := [{ name := "A", run := "./a", points := some 2 },
                { name := "B", run := "./b", points := some 3 }] }
    [true, false] "w" rfl rfl
